import Mathlib

/-!
# Verification of the RpiDVR recording/telemetry/storage core

Shallow embedding of `src/dvr_system.py` (recording controller, telemetry
sampler, storage inspector, stats route, frame generator), with theorems
checking the specification's claims against it.

Numeric values that Python stores as floats are modelled as rationals;
wall-clock instants that the program only ever observes through
`datetime` broken-down fields are modelled by a `DateTime` record at
one-second granularity.
-/

namespace DVR

/-- Broken-down wall-clock timestamp, as observed through `datetime.now()`
(one-second granularity, which is all the program ever formats). -/
structure DateTime where
  year : ℕ
  month : ℕ
  day : ℕ
  hour : ℕ
  minute : ℕ
  second : ℕ
  deriving DecidableEq, Repr

/-- Field ranges guaranteed by Python `datetime` (year 1000–9999 so that
`%Y` renders as exactly four digits). -/
def DateTime.Valid (t : DateTime) : Prop :=
  1000 ≤ t.year ∧ t.year ≤ 9999 ∧ 1 ≤ t.month ∧ t.month ≤ 12 ∧
    1 ≤ t.day ∧ t.day ≤ 31 ∧ t.hour ≤ 23 ∧ t.minute ≤ 59 ∧ t.second ≤ 59

instance (t : DateTime) : Decidable t.Valid := by
  unfold DateTime.Valid; infer_instance

/-- The ASCII character for decimal digit `d`. -/
def digitChar (d : ℕ) : Char := Char.ofNat (48 + d)

/-- Value `n` rendered as exactly `k` decimal digits, most significant first,
zero padded, as `strftime` does for its numeric fields. -/
def padDigits : ℕ → ℕ → List Char
  | 0, _ => []
  | k + 1, n => digitChar (n / 10 ^ k) :: padDigits k (n % 10 ^ k)

/-- Format `strftime("%Y%m%d_%H%M%S")`, as a character list. -/
def fileTimestampChars (t : DateTime) : List Char :=
  padDigits 4 t.year ++ padDigits 2 t.month ++ padDigits 2 t.day ++
    ['_'] ++ padDigits 2 t.hour ++ padDigits 2 t.minute ++ padDigits 2 t.second

/-- Format `strftime("%Y%m%d_%H%M%S")` (used to name recording files). -/
def fileTimestamp (t : DateTime) : String := String.mk (fileTimestampChars t)

/-- Format `strftime("%Y-%m-%d %H:%M:%S")`, as a character list. -/
def dateTimestampChars (t : DateTime) : List Char :=
  padDigits 4 t.year ++ '-' ::
    (padDigits 2 t.month ++ '-' ::
      (padDigits 2 t.day ++ ' ' ::
        (padDigits 2 t.hour ++ ':' ::
          (padDigits 2 t.minute ++ ':' :: padDigits 2 t.second))))

/-- Format `strftime("%Y-%m-%d %H:%M:%S")` (used for overlay text and the
recording-list `date` field). -/
def dateTimestamp (t : DateTime) : String := String.mk (dateTimestampChars t)

/-- The recording-related module globals of `dvr_system.py`:
`recording` and `recording_filename`. -/
structure RecState where
  recording : Bool
  recording_filename : Option String
  deriving DecidableEq, Repr

/-- Initial values of the globals (`recording = False`,
`recording_filename = None`). -/
def initState : RecState := { recording := false, recording_filename := none }

/-- Python `str()` of an optional string (`None` prints as `"None"`),
used in the stop route's message formatting. -/
def pyStr : Option String → String
  | none => "None"
  | some s => s

/-- JSON body and HTTP code of the start/stop routes.  `filename = none`
models the `filename` key being absent from the body. -/
structure ApiResponse where
  message : String
  status : String
  filename : Option String
  code : ℕ
  deriving DecidableEq, Repr

/-- Handler of `POST /api/record/start` (`start_recording`, dvr_system.py
lines 738-758): reject with 400 when already recording, otherwise set
`recording`, remember a timestamp-derived `.avi` filename and answer
success. -/
def start_recording (now : DateTime) (s : RecState) : RecState × ApiResponse :=
  if s.recording then
    (s, { message := "Already recording", status := "error", filename := none, code := 400 })
  else
    let fn := fileTimestamp now ++ ".avi"
    ({ recording := true, recording_filename := some fn },
      { message := "Recording started: " ++ fn, status := "success",
        filename := some fn, code := 200 })

/-- Handler of `POST /api/record/stop` (`stop_recording`, dvr_system.py
lines 760-776): reject with 400 when idle, otherwise clear the flag and
the remembered filename and answer success. -/
def stop_recording (s : RecState) : RecState × ApiResponse :=
  if s.recording then
    ({ recording := false, recording_filename := none },
      { message := "Recording stopped: " ++ pyStr s.recording_filename,
        status := "success", filename := none, code := 200 })
  else
    (s, { message := "Not currently recording", status := "error",
          filename := none, code := 400 })

/-- A start/stop command issued to the controller; a start carries the
wall-clock instant at which it runs. -/
inductive Command where
  | start (now : DateTime)
  | stop
  deriving DecidableEq, Repr

/-- State transition of one command (response discarded). -/
def stepCmd (s : RecState) : Command → RecState
  | .start now => (start_recording now s).1
  | .stop => (stop_recording s).1

/-- Run a sequence of commands from a state. -/
def run (s : RecState) (cs : List Command) : RecState := cs.foldl stepCmd s

/-- Number of active recording sessions in a state (the flag is a single
boolean, so this is 0 or 1). -/
def activeSessions (s : RecState) : ℕ := if s.recording then 1 else 0

/-- Is `c` an ASCII decimal digit? -/
def isDigitChar (c : Char) : Bool := decide (48 ≤ c.toNat ∧ c.toNat ≤ 57)

/-- Does `s` match `YYYYMMDD_HHMMSS.avi`: 8 digits, an underscore,
6 digits, then the configured extension? -/
def matchesRecordingPattern (s : String) : Bool :=
  let l := s.toList
  decide (l.length = 19) && (l.take 8).all isDigitChar &&
    decide (l[8]? = some '_') && ((l.drop 9).take 6).all isDigitChar &&
    decide (l.drop 15 = ['.', 'a', 'v', 'i'])

/-- The safety invariant of the recording controller: at most one active
session, and the remembered filename is a non-empty string exactly when
the state is Recording. -/
def recInvariant (s : RecState) : Prop :=
  activeSessions s ≤ 1 ∧
    (s.recording = true ↔ ∃ fn, s.recording_filename = some fn ∧ 0 < fn.length)

/-- Python float modulo on rationals: `t % m = t - m * ⌊t / m⌋` (the
result carries the divisor's sign; for positive `m` it lies in
`[0, m)`). -/
def pymod (t m : ℚ) : ℚ := t - m * ⌊t / m⌋

/-- Simulated-path voltage `12.0 + (time.time() % 10) / 10`
(dvr_system.py lines 171 and 198). -/
def simVoltage (t : ℚ) : ℚ := 12 + pymod t 10 / 10

/-- Simulated-path current `0.5 + (time.time() % 5) / 10`
(dvr_system.py lines 172 and 199). -/
def simCurrent (t : ℚ) : ℚ := 1 / 2 + pymod t 5 / 10

/-- Simulated-path power `voltage * current`. -/
def simPower (t : ℚ) : ℚ := simVoltage t * simCurrent t

/-- One published telemetry reading (the module globals
`current_voltage`, `current_current`, `current_power`). -/
structure Telemetry where
  voltage : ℚ
  current : ℚ
  power : ℚ
  deriving DecidableEq, Repr

/-- Behaviour of the INA219 during one iteration of the hardware
sampling loop: either all three reads succeed, or a `DeviceRangeError`
is raised by the `voltage()`, `current()` or `power()` call (carrying
the values returned by the calls that ran before the raising one). -/
inductive SensorOutcome where
  | ok (v c p : ℚ)
  | rangeErrorAtVoltage
  | rangeErrorAtCurrent (v : ℚ)
  | rangeErrorAtPower (v c : ℚ)
  deriving DecidableEq, Repr

/-- One iteration of the hardware-path loop of `read_battery_data`
(dvr_system.py lines 182-192): the three assignments run in order inside
the `try`; a `DeviceRangeError` aborts the assignments that follow the
raising call, is logged, and the loop continues with the next sample.
Reported mA/mW are converted to A/W. -/
def sampleStep (prev : Telemetry) : SensorOutcome → Telemetry
  | .ok v c p => { voltage := v, current := c / 1000, power := p / 1000 }
  | .rangeErrorAtVoltage => prev
  | .rangeErrorAtCurrent v => { prev with voltage := v }
  | .rangeErrorAtPower v c => { voltage := v, current := c / 1000, power := prev.power }

/-- The fields of `os.statvfs` that `get_ssd_info` reads. -/
structure VfsStat where
  f_blocks : ℕ
  f_bavail : ℕ
  f_frsize : ℕ
  deriving DecidableEq, Repr

/-- Storage snapshot dictionary returned by `get_ssd_info`. -/
structure SSDInfo where
  total : ℚ
  used : ℚ
  free : ℚ
  percent : ℚ
  mounted : Bool
  deriving DecidableEq, Repr

/-- Round to the nearest integer, ties to even (Python `round`). -/
def roundHalfEven (q : ℚ) : ℤ :=
  if q - ⌊q⌋ < 1 / 2 then ⌊q⌋
  else if 1 / 2 < q - ⌊q⌋ then ⌊q⌋ + 1
  else if ⌊q⌋ % 2 = 0 then ⌊q⌋ else ⌊q⌋ + 1

/-- Python `round(q, n)`. -/
def pyround (n : ℕ) (q : ℚ) : ℚ := (roundHalfEven (q * 10 ^ n) : ℚ) / 10 ^ n

/-- Figure `stat.f_blocks * stat.f_frsize / 1024**3`. -/
def totalGB (st : VfsStat) : ℚ := (st.f_blocks * st.f_frsize : ℕ) / (1024 ^ 3 : ℚ)

/-- Figure `stat.f_bavail * stat.f_frsize / 1024**3`. -/
def freeGB (st : VfsStat) : ℚ := (st.f_bavail * st.f_frsize : ℕ) / (1024 ^ 3 : ℚ)

/-- Figure `total - free`. -/
def usedGB (st : VfsStat) : ℚ := totalGB st - freeGB st

/-- Function `get_ssd_info` (dvr_system.py lines 113-138): the input is the
outcome of `os.statvfs(SSD_MOUNT_PATH)`.  On success, capacity figures
in GB rounded to two decimals, with percent-used computed by division
only under the `total > 0` guard; on any `statvfs` error, the unmounted
all-zero sentinel is returned instead of propagating the exception. -/
def get_ssd_info : Except String VfsStat → SSDInfo
  | .error _ => { total := 0, used := 0, free := 0, percent := 0, mounted := false }
  | .ok st =>
    let percent_used : ℚ :=
      if 0 < totalGB st then usedGB st / totalGB st * 100 else 0
    { total := pyround 2 (totalGB st), used := pyround 2 (usedGB st),
      free := pyround 2 (freeGB st), percent := pyround 2 percent_used,
      mounted := true }

/-- A JSON value, as produced by Flask `jsonify` (Python `None`
serializes to `null`; the key stays present). -/
inductive JVal where
  | null
  | bool (b : Bool)
  | num (q : ℚ)
  | str (s : String)
  | obj (fields : List (String × JVal))

/-- JSON object for the storage snapshot dictionary. -/
def ssdJson (i : SSDInfo) : JVal :=
  .obj [("total", .num i.total), ("used", .num i.used), ("free", .num i.free),
    ("percent", .num i.percent), ("mounted", .bool i.mounted)]

/-- Serialization of an optional string by `jsonify`: `None` becomes JSON `null`. -/
def jsonOfOptStr : Option String → JVal
  | none => .null
  | some s => .str s

/-- Handler of `GET /api/stats` (`get_stats`, dvr_system.py lines 713-726):
the JSON body as an association list, built from the recording state, the
latest telemetry values, the `statvfs` outcome and the elapsed seconds
since startup. -/
def get_stats (s : RecState) (v c p : ℚ) (ssd : Except String VfsStat)
    (elapsedSec : ℚ) : List (String × JVal) :=
  [("voltage", .num (pyround 2 v)),
    ("current", .num (pyround 3 c)),
    ("power", .num (pyround 2 p)),
    ("recording", .bool s.recording),
    ("filename", jsonOfOptStr s.recording_filename),
    ("storage", ssdJson (get_ssd_info ssd)),
    ("uptime", .num (pyround 1 (elapsedSec / 60)))]

/-- One `generate_frames` iteration's inputs: `none` models `get_frame()`
returning no frame; `some (f, e)` a captured frame `f` together with the
result of `cv2.imencode` on it (`none` when encoding reports failure,
`some bytes` the JPEG byte string). -/
abbrev CaptureEvent := Option (ℕ × Option String)

/-- One multipart chunk as yielded by the generator:
`b'--frame\r\nContent-Type: image/jpeg\r\n\r\n' + frame_bytes + b'\r\n'`. -/
def framePart (bytes : String) : String :=
  "--frame\r\nContent-Type: image/jpeg\r\n\r\n" ++ bytes ++ "\r\n"

/-- Generator `CameraStream.generate_frames` (dvr_system.py lines 249-262), run
against a finite prefix of capture outcomes: loop forever; a failed
capture breaks the loop; a failed encode continues without yielding;
otherwise yield the multipart chunk. -/
def generate_frames : List CaptureEvent → List String
  | [] => []
  | none :: _ => []
  | some (_, none) :: rest => generate_frames rest
  | some (_, some b) :: rest => framePart b :: generate_frames rest

/-- Field bounds under which every `strftime` numeric field renders in
its full zero-padded width (guaranteed for Python `datetime` values with
four-digit years). -/
def DateTime.Fits (t : DateTime) : Prop :=
  t.year < 10 ^ 4 ∧ t.month < 10 ^ 2 ∧ t.day < 10 ^ 2 ∧
    t.hour < 10 ^ 2 ∧ t.minute < 10 ^ 2 ∧ t.second < 10 ^ 2

instance (t : DateTime) : Decidable t.Fits := by
  unfold DateTime.Fits; infer_instance

/-- Chronological strict order on broken-down timestamps
(lexicographic on year, month, day, hour, minute, second). -/
def dtLt (a b : DateTime) : Prop :=
  a.year < b.year ∨ (a.year = b.year ∧
    (a.month < b.month ∨ (a.month = b.month ∧
      (a.day < b.day ∨ (a.day = b.day ∧
        (a.hour < b.hour ∨ (a.hour = b.hour ∧
          (a.minute < b.minute ∨ (a.minute = b.minute ∧
            a.second < b.second)))))))))

/-- Chronological order on broken-down timestamps, reflexive version. -/
def dtLe (a b : DateTime) : Prop := dtLt a b ∨ a = b

/-- One directory entry of the storage root: its name, its size in bytes
(`os.path.getsize`) and its last-modified instant
(`datetime.fromtimestamp(os.path.getmtime(...))`, second granularity). -/
structure FileEntry where
  name : String
  size : ℕ
  mtime : DateTime
  deriving DecidableEq, Repr

/-- The extension filter of `get_recording_list`:
`filename.endswith('.avi') or filename.endswith('.mp4')`. -/
def isVideoFile (name : String) : Bool :=
  name.endsWith ".avi" || name.endsWith ".mp4"

/-- One dictionary of the recording listing:
`{name, size (MB, 2 decimals), date (formatted mtime)}`. -/
structure RecordingItem where
  name : String
  size : ℚ
  date : String
  deriving DecidableEq, Repr

/-- The dictionary built for one recognized file. -/
def mkRecordingItem (e : FileEntry) : RecordingItem :=
  { name := e.name, size := pyround 2 ((e.size : ℚ) / 1024 ^ 2),
    date := dateTimestamp e.mtime }

/-- Function `get_recording_list` (dvr_system.py lines 140-157): keep the entries
with a recognized video extension, annotate each with rounded MB size
and formatted mtime, and stable-sort by the `date` string descending
(`sorted(..., key=lambda x: x['date'], reverse=True)`). -/
def get_recording_list (dir : List FileEntry) : List RecordingItem :=
  ((dir.filter fun e => isVideoFile e.name).map mkRecordingItem).mergeSort
    fun x y => decide (y.date ≤ x.date)

theorem padDigits_length (k n : ℕ) : (padDigits k n).length = k := by
  induction k generalizing n with
  | zero => rfl
  | succ k ih => simp [padDigits, ih]

theorem isDigitChar_digitChar {d : ℕ} (h : d < 10) :
    isDigitChar (digitChar d) = true := by
  interval_cases d <;> decide

theorem padDigits_all_digit {k n : ℕ} (h : n < 10 ^ k) :
    (padDigits k n).all isDigitChar = true := by
  induction k generalizing n with
  | zero => rfl
  | succ k ih =>
    have h1 : n / 10 ^ k < 10 := by
      rw [Nat.div_lt_iff_lt_mul (Nat.pos_pow_of_pos k (by norm_num))]
      calc n < 10 ^ (k + 1) := h
        _ = 10 * 10 ^ k := by ring
    have h2 : n % 10 ^ k < 10 ^ k :=
      Nat.mod_lt _ (Nat.pos_pow_of_pos k (by norm_num))
    simp [padDigits, isDigitChar_digitChar h1, ih h2]

theorem fileTimestamp_append_avi_toList (t : DateTime) :
    (fileTimestamp t ++ ".avi").toList =
      padDigits 4 t.year ++ padDigits 2 t.month ++ padDigits 2 t.day ++
        ['_'] ++ padDigits 2 t.hour ++ padDigits 2 t.minute ++
        padDigits 2 t.second ++ ['.', 'a', 'v', 'i'] := by
  show (fileTimestamp t ++ ".avi").data = _
  rw [String.data_append]
  show fileTimestampChars t ++ ['.', 'a', 'v', 'i'] = _
  simp [fileTimestampChars]

theorem matchesRecordingPattern_fileTimestamp {t : DateTime} (h : t.Valid) :
    matchesRecordingPattern (fileTimestamp t ++ ".avi") = true := by
  obtain ⟨hy1, hy2, hm1, hm2, hd1, hd2, hh, hmi, hs⟩ := h
  have Hy : t.year < 10 ^ 4 := by omega
  have Hm : t.month < 10 ^ 2 := by omega
  have Hd : t.day < 10 ^ 2 := by omega
  have Hh : t.hour < 10 ^ 2 := by omega
  have Hmi : t.minute < 10 ^ 2 := by omega
  have Hs : t.second < 10 ^ 2 := by omega
  have len8 : (padDigits 4 t.year ++ padDigits 2 t.month ++ padDigits 2 t.day).length
      = 8 := by simp [padDigits_length]
  unfold matchesRecordingPattern
  rw [fileTimestamp_append_avi_toList]
  have e1 : padDigits 4 t.year ++ padDigits 2 t.month ++ padDigits 2 t.day ++
      ['_'] ++ padDigits 2 t.hour ++ padDigits 2 t.minute ++
      padDigits 2 t.second ++ ['.', 'a', 'v', 'i'] =
      (padDigits 4 t.year ++ padDigits 2 t.month ++ padDigits 2 t.day) ++
      (['_'] ++ (padDigits 2 t.hour ++ padDigits 2 t.minute ++
        padDigits 2 t.second ++ ['.', 'a', 'v', 'i'])) := by
    simp [List.append_assoc]
  rw [e1]
  have hLen : ((padDigits 4 t.year ++ padDigits 2 t.month ++ padDigits 2 t.day) ++
      (['_'] ++ (padDigits 2 t.hour ++ padDigits 2 t.minute ++
        padDigits 2 t.second ++ ['.', 'a', 'v', 'i']))).length = 19 := by
    simp [padDigits_length]
  have hTake : ((padDigits 4 t.year ++ padDigits 2 t.month ++ padDigits 2 t.day) ++
      (['_'] ++ (padDigits 2 t.hour ++ padDigits 2 t.minute ++
        padDigits 2 t.second ++ ['.', 'a', 'v', 'i']))).take 8 =
      padDigits 4 t.year ++ padDigits 2 t.month ++ padDigits 2 t.day :=
    List.take_left' len8
  have hGet : ((padDigits 4 t.year ++ padDigits 2 t.month ++ padDigits 2 t.day) ++
      (['_'] ++ (padDigits 2 t.hour ++ padDigits 2 t.minute ++
        padDigits 2 t.second ++ ['.', 'a', 'v', 'i'])))[8]? = some '_' := by
    rw [List.getElem?_append_right (by omega)]
    simp [padDigits_length]
  have hDrop9 : ((padDigits 4 t.year ++ padDigits 2 t.month ++ padDigits 2 t.day) ++
      (['_'] ++ (padDigits 2 t.hour ++ padDigits 2 t.minute ++
        padDigits 2 t.second ++ ['.', 'a', 'v', 'i']))).drop 9 =
      padDigits 2 t.hour ++ padDigits 2 t.minute ++
        padDigits 2 t.second ++ ['.', 'a', 'v', 'i'] := by
    rw [show (padDigits 4 t.year ++ padDigits 2 t.month ++ padDigits 2 t.day) ++
      (['_'] ++ (padDigits 2 t.hour ++ padDigits 2 t.minute ++
        padDigits 2 t.second ++ ['.', 'a', 'v', 'i'])) =
      ((padDigits 4 t.year ++ padDigits 2 t.month ++ padDigits 2 t.day) ++ ['_']) ++
      (padDigits 2 t.hour ++ padDigits 2 t.minute ++
        padDigits 2 t.second ++ ['.', 'a', 'v', 'i']) by simp [List.append_assoc]]
    exact List.drop_left' (by simp [padDigits_length])
  have hTake6 : (padDigits 2 t.hour ++ padDigits 2 t.minute ++
      padDigits 2 t.second ++ ['.', 'a', 'v', 'i']).take 6 =
      padDigits 2 t.hour ++ padDigits 2 t.minute ++ padDigits 2 t.second := by
    rw [show padDigits 2 t.hour ++ padDigits 2 t.minute ++
      padDigits 2 t.second ++ ['.', 'a', 'v', 'i'] =
      (padDigits 2 t.hour ++ padDigits 2 t.minute ++ padDigits 2 t.second) ++
      ['.', 'a', 'v', 'i'] by simp [List.append_assoc]]
    exact List.take_left' (by simp [padDigits_length])
  have hDrop15 : ((padDigits 4 t.year ++ padDigits 2 t.month ++ padDigits 2 t.day) ++
      (['_'] ++ (padDigits 2 t.hour ++ padDigits 2 t.minute ++
        padDigits 2 t.second ++ ['.', 'a', 'v', 'i']))).drop 15 =
      ['.', 'a', 'v', 'i'] := by
    rw [show (padDigits 4 t.year ++ padDigits 2 t.month ++ padDigits 2 t.day) ++
      (['_'] ++ (padDigits 2 t.hour ++ padDigits 2 t.minute ++
        padDigits 2 t.second ++ ['.', 'a', 'v', 'i'])) =
      ((padDigits 4 t.year ++ padDigits 2 t.month ++ padDigits 2 t.day) ++ ['_'] ++
        (padDigits 2 t.hour ++ padDigits 2 t.minute ++ padDigits 2 t.second)) ++
      ['.', 'a', 'v', 'i'] by simp [List.append_assoc]]
    exact List.drop_left' (by simp [padDigits_length])
  simp only [hLen, hTake, hGet, hDrop9, hTake6, hDrop15, List.all_append]
  simp [padDigits_all_digit Hy, padDigits_all_digit Hm, padDigits_all_digit Hd,
    padDigits_all_digit Hh, padDigits_all_digit Hmi, padDigits_all_digit Hs]

theorem filename_length_pos (t : DateTime) : 0 < (fileTimestamp t ++ ".avi").length := by
  have h4 : (".avi" : String).length = 4 := rfl
  have : (fileTimestamp t ++ ".avi").length = (fileTimestamp t).length + 4 := by
    simp [String.length_append, h4]
  omega

theorem stepCmd_preserves_recInvariant (s : RecState) (c : Command)
    (h : recInvariant s) : recInvariant (stepCmd s c) := by
  obtain ⟨h1, h2⟩ := h
  cases c with
  | start now =>
    by_cases hr : s.recording
    · simpa [stepCmd, start_recording, hr] using ⟨h1, h2⟩
    · refine ⟨by simp [stepCmd, start_recording, hr, activeSessions], ?_⟩
      simp only [stepCmd, start_recording, hr]
      exact ⟨fun _ => ⟨fileTimestamp now ++ ".avi", rfl, filename_length_pos now⟩,
        fun _ => rfl⟩
  | stop =>
    by_cases hr : s.recording
    · refine ⟨by simp [stepCmd, stop_recording, hr, activeSessions], ?_⟩
      simp [stepCmd, stop_recording, hr]
    · simpa [stepCmd, stop_recording, hr] using ⟨h1, h2⟩

theorem run_preserves_recInvariant (cs : List Command) (s : RecState)
    (h : recInvariant s) : recInvariant (run s cs) := by
  induction cs generalizing s with
  | nil => exact h
  | cons c cs ih => exact ih _ (stepCmd_preserves_recInvariant s c h)

/-- Claim C1: a start command in the Idle state flips the state to
Recording and answers success (HTTP 200) with a filename matching
`YYYYMMDD_HHMMSS.avi`; a second start before any stop answers the
already-recording error (HTTP 400) and leaves both the state and the
remembered filename unchanged. -/
theorem start_idle_succeeds_second_start_rejected
    (t t' : DateTime) (s : RecState) (hv : t.Valid) (hidle : s.recording = false) :
    ((start_recording t s).1.recording = true ∧
      (start_recording t s).2.status = "success" ∧
      (start_recording t s).2.code = 200 ∧
      (start_recording t s).2.filename = (start_recording t s).1.recording_filename ∧
      (∃ fn, (start_recording t s).2.filename = some fn ∧
        matchesRecordingPattern fn = true)) ∧
    ((start_recording t' (start_recording t s).1).1 = (start_recording t s).1 ∧
      (start_recording t' (start_recording t s).1).2.status = "error" ∧
      (start_recording t' (start_recording t s).1).2.code = 400 ∧
      (start_recording t' (start_recording t s).1).1.recording_filename =
        some (fileTimestamp t ++ ".avi")) := by
  constructor
  · refine ⟨by simp [start_recording, hidle], by simp [start_recording, hidle],
      by simp [start_recording, hidle], by simp [start_recording, hidle], ?_⟩
    exact ⟨fileTimestamp t ++ ".avi", by simp [start_recording, hidle],
      matchesRecordingPattern_fileTimestamp hv⟩
  · refine ⟨?_, ?_, ?_, ?_⟩ <;> simp [start_recording, hidle]

/-- Witness for C1 at a concrete timestamp and the initial state. -/
theorem start_idle_succeeds_second_start_rejected_witness :
    ((start_recording ⟨2024, 3, 5, 14, 30, 59⟩ initState).1.recording = true ∧
      (start_recording ⟨2024, 3, 5, 14, 30, 59⟩ initState).2.status = "success" ∧
      (start_recording ⟨2024, 3, 5, 14, 30, 59⟩ initState).2.code = 200 ∧
      (start_recording ⟨2024, 3, 5, 14, 30, 59⟩ initState).2.filename =
        (start_recording ⟨2024, 3, 5, 14, 30, 59⟩ initState).1.recording_filename ∧
      (∃ fn, (start_recording ⟨2024, 3, 5, 14, 30, 59⟩ initState).2.filename = some fn ∧
        matchesRecordingPattern fn = true)) ∧
    ((start_recording ⟨2024, 3, 5, 14, 31, 0⟩
        (start_recording ⟨2024, 3, 5, 14, 30, 59⟩ initState).1).1 =
        (start_recording ⟨2024, 3, 5, 14, 30, 59⟩ initState).1 ∧
      (start_recording ⟨2024, 3, 5, 14, 31, 0⟩
        (start_recording ⟨2024, 3, 5, 14, 30, 59⟩ initState).1).2.status = "error" ∧
      (start_recording ⟨2024, 3, 5, 14, 31, 0⟩
        (start_recording ⟨2024, 3, 5, 14, 30, 59⟩ initState).1).2.code = 400 ∧
      (start_recording ⟨2024, 3, 5, 14, 31, 0⟩
        (start_recording ⟨2024, 3, 5, 14, 30, 59⟩ initState).1).1.recording_filename =
        some (fileTimestamp ⟨2024, 3, 5, 14, 30, 59⟩ ++ ".avi")) :=
  start_idle_succeeds_second_start_rejected ⟨2024, 3, 5, 14, 30, 59⟩
    ⟨2024, 3, 5, 14, 31, 0⟩ initState (by decide) rfl

/-- Claim C2: a stop command in the Idle state answers the not-recording
error (HTTP 400) and changes nothing; a stop command while Recording
flips the state to Idle, clears the remembered filename, and answers
success (HTTP 200). -/
theorem stop_idle_rejected_stop_recording_clears (s : RecState) :
    (s.recording = false →
      (stop_recording s).1 = s ∧
      (stop_recording s).2.status = "error" ∧
      (stop_recording s).2.code = 400) ∧
    (s.recording = true →
      (stop_recording s).1.recording = false ∧
      (stop_recording s).1.recording_filename = none ∧
      (stop_recording s).2.status = "success" ∧
      (stop_recording s).2.code = 200) := by
  constructor
  · intro h; refine ⟨?_, ?_, ?_⟩ <;> simp [stop_recording, h]
  · intro h; refine ⟨?_, ?_, ?_, ?_⟩ <;> simp [stop_recording, h]

/-- Witness for C2 at both an idle and a recording concrete state. -/
theorem stop_idle_rejected_stop_recording_clears_witness :
    ((stop_recording initState).1 = initState ∧
      (stop_recording initState).2.status = "error" ∧
      (stop_recording initState).2.code = 400) ∧
    ((stop_recording ⟨true, some "20240305_143059.avi"⟩).1.recording = false ∧
      (stop_recording ⟨true, some "20240305_143059.avi"⟩).1.recording_filename = none ∧
      (stop_recording ⟨true, some "20240305_143059.avi"⟩).2.status = "success" ∧
      (stop_recording ⟨true, some "20240305_143059.avi"⟩).2.code = 200) :=
  ⟨(stop_idle_rejected_stop_recording_clears initState).1 rfl,
    (stop_idle_rejected_stop_recording_clears ⟨true, some "20240305_143059.avi"⟩).2 rfl⟩

/-- Claim C3: in every state reachable from the initial state by start
and stop commands, at most one recording session is active, and the
remembered filename is a non-empty string exactly when the state is
Recording. -/
theorem reachable_at_most_one_session_filename_iff_recording
    (cs : List Command) :
    activeSessions (run initState cs) ≤ 1 ∧
      ((run initState cs).recording = true ↔
        ∃ fn, (run initState cs).recording_filename = some fn ∧ 0 < fn.length) :=
  run_preserves_recInvariant cs initState
    ⟨by simp [initState, activeSessions], by simp [initState]⟩

theorem pymod_eq_mul_fract (t m : ℚ) (hm : m ≠ 0) :
    pymod t m = m * Int.fract (t / m) := by
  unfold pymod Int.fract
  field_simp

theorem pymod_nonneg (t m : ℚ) (hm : 0 < m) : 0 ≤ pymod t m := by
  rw [pymod_eq_mul_fract t m (ne_of_gt hm)]
  exact mul_nonneg hm.le (Int.fract_nonneg _)

theorem pymod_lt (t m : ℚ) (hm : 0 < m) : pymod t m < m := by
  rw [pymod_eq_mul_fract t m (ne_of_gt hm)]
  calc m * Int.fract (t / m) < m * 1 :=
        (mul_lt_mul_left hm).2 (Int.fract_lt_one _)
    _ = m := mul_one m

/-- Claim C4: at every wall-clock time the simulated telemetry path
produces a voltage in `[12.0, 13.0)` and a current in `[0.5, 1.0)`. -/
theorem sim_telemetry_in_range (t : ℚ) :
    12 ≤ simVoltage t ∧ simVoltage t < 13 ∧
      1 / 2 ≤ simCurrent t ∧ simCurrent t < 1 := by
  have h10a := pymod_nonneg t 10 (by norm_num)
  have h10b := pymod_lt t 10 (by norm_num)
  have h5a := pymod_nonneg t 5 (by norm_num)
  have h5b := pymod_lt t 5 (by norm_num)
  refine ⟨?_, ?_, ?_, ?_⟩ <;> simp only [simVoltage, simCurrent] <;> linarith

/-- Counterexample to claim C5 as stated: when `DeviceRangeError` is
raised by the `current()` call, the `voltage` field has already been
assigned, so the previous reading is not kept entirely unchanged. -/
theorem sample_range_error_not_unchanged_counterexample :
    sampleStep ⟨12, 1, 12⟩ (.rangeErrorAtCurrent 9) ≠ ⟨12, 1, 12⟩ := by
  intro h
  have : (9 : ℚ) = 12 := congrArg Telemetry.voltage h
  norm_num at this

/-- Claim C5 (amended): on a `DeviceRangeError` the sample update is
aborted at the raising call and the loop continues: fields whose
assignments had not yet run keep their previous values (all three if
`voltage()` raises; `current` and `power` if `current()` raises;
`power` if `power()` raises). -/
theorem sample_range_error_keeps_unassigned_fields (prev : Telemetry) :
    sampleStep prev .rangeErrorAtVoltage = prev ∧
      (∀ v, (sampleStep prev (.rangeErrorAtCurrent v)).current = prev.current ∧
        (sampleStep prev (.rangeErrorAtCurrent v)).power = prev.power) ∧
      (∀ v c, (sampleStep prev (.rangeErrorAtPower v c)).power = prev.power) :=
  ⟨rfl, fun _ => ⟨rfl, rfl⟩, fun _ _ => rfl⟩

/-- Claim C7: any filesystem-stat error makes the storage snapshot the
all-zero unmounted sentinel; the query itself never fails (it is a total
function of the stat outcome). -/
theorem ssd_info_error_sentinel (e : String) :
    get_ssd_info (.error e) =
      { total := 0, used := 0, free := 0, percent := 0, mounted := false } := rfl

theorem pyround_zero (n : ℕ) : pyround n 0 = 0 := by
  unfold pyround roundHalfEven
  norm_num

/-- Claim C10: the percent-used figure divides `used` by `total` only
when `total` is strictly positive, and is 0 when `total` is zero, so the
snapshot computation never divides by zero. -/
theorem ssd_percent_division_guarded (st : VfsStat) :
    (totalGB st = 0 → (get_ssd_info (.ok st)).percent = 0) ∧
      (totalGB st ≠ 0 →
        0 < totalGB st ∧
          (get_ssd_info (.ok st)).percent =
            pyround 2 (usedGB st / totalGB st * 100)) := by
  have hnn : 0 ≤ totalGB st := by
    unfold totalGB
    positivity
  constructor
  · intro h
    simp only [get_ssd_info, h, lt_irrefl, if_neg (lt_irrefl (0 : ℚ))]
    exact pyround_zero 2
  · intro h
    have hpos : 0 < totalGB st := lt_of_le_of_ne hnn (Ne.symm h)
    exact ⟨hpos, by simp only [get_ssd_info, if_pos hpos]⟩

/-- Witness for C10 at a zero-size and a non-degenerate concrete stat. -/
theorem ssd_percent_division_guarded_witness :
    ((get_ssd_info (.ok ⟨0, 0, 4096⟩)).percent = 0) ∧
      (0 < totalGB ⟨1024 ^ 3, 1024 ^ 2, 1⟩ ∧
        (get_ssd_info (.ok ⟨1024 ^ 3, 1024 ^ 2, 1⟩)).percent =
          pyround 2 (usedGB ⟨1024 ^ 3, 1024 ^ 2, 1⟩ /
            totalGB ⟨1024 ^ 3, 1024 ^ 2, 1⟩ * 100)) :=
  ⟨(ssd_percent_division_guarded ⟨0, 0, 4096⟩).1 (by norm_num [totalGB]),
    (ssd_percent_division_guarded ⟨1024 ^ 3, 1024 ^ 2, 1⟩).2 (by norm_num [totalGB])⟩

theorem run_stops_fixed (s : RecState) (h : s.recording = false)
    (cs : List Command) (hall : ∀ c ∈ cs, c = Command.stop) : run s cs = s := by
  induction cs with
  | nil => rfl
  | cons c cs ih =>
    have hc : c = Command.stop := hall c (List.mem_cons_self c cs)
    subst hc
    have : stepCmd s Command.stop = s := by simp [stepCmd, stop_recording, h]
    show run (stepCmd s Command.stop) cs = s
    rw [this]
    exact ih fun c hc => hall c (List.mem_cons_of_mem _ hc)

/-- Counterexample to claim C6 as stated: after start-then-stop the
`/api/stats` body still carries the `filename` key (with JSON `null`);
the key is not absent. -/
theorem stats_filename_key_present_counterexample :
    List.lookup "filename"
        (get_stats (run initState [Command.start ⟨2024, 1, 2, 3, 4, 5⟩, Command.stop])
          12 1 12 (.error "unmounted") 60) = some JVal.null ∧
      List.lookup "filename"
        (get_stats (run initState [Command.start ⟨2024, 1, 2, 3, 4, 5⟩, Command.stop])
          12 1 12 (.error "unmounted") 60) ≠ none := by
  have h : List.lookup "filename"
      (get_stats (run initState [Command.start ⟨2024, 1, 2, 3, 4, 5⟩, Command.stop])
        12 1 12 (.error "unmounted") 60) = some JVal.null := rfl
  exact ⟨h, by rw [h]; exact Option.some_ne_none _⟩

/-- Claim C6 (amended): after an accepted stop command, the `filename`
key of every subsequent `/api/stats` body holds JSON `null` (the key
itself stays present) until the next accepted start command. -/
theorem stats_filename_null_after_stop
    (s : RecState) (hrec : s.recording = true)
    (cs : List Command) (hnostart : ∀ c ∈ cs, c = Command.stop)
    (v c p : ℚ) (ssd : Except String VfsStat) (u : ℚ) :
    List.lookup "filename"
        (get_stats (run (stop_recording s).1 cs) v c p ssd u) = some JVal.null := by
  have hstop : (stop_recording s).1 =
      { recording := false, recording_filename := none } := by
    simp [stop_recording, hrec]
  rw [hstop, run_stops_fixed _ rfl cs hnostart]
  rfl

/-- Witness for C6 (amended) after a stop from a concrete recording
state, with two further stop commands issued before the stats query. -/
theorem stats_filename_null_after_stop_witness :
    List.lookup "filename"
        (get_stats (run (stop_recording ⟨true, some "20240102_030405.avi"⟩).1
            [Command.stop, Command.stop]) 12 1 12 (.error "unmounted") 60) =
      some JVal.null :=
  stats_filename_null_after_stop ⟨true, some "20240102_030405.avi"⟩ rfl
    [Command.stop, Command.stop] (by decide) 12 1 12 (.error "unmounted") 60

/-- Counterexample to claim C9 as stated: two successful captures, the
first of which fails to encode, yield only one chunk — not one per
successful capture. -/
theorem generate_frames_encode_failure_counterexample :
    (generate_frames [some (0, none), some (1, some "JPEG")]).length = 1 ∧
      ([some (0, none), some (1, some "JPEG")] : List CaptureEvent).countP
          (fun e => e.isSome) = 2 := by
  exact ⟨rfl, rfl⟩

/-- Claim C9 (amended): the generator yields exactly one multipart chunk
per successfully captured and successfully encoded frame, in order,
stopping at the first failed capture; an encode failure skips that frame
without terminating, and once `get_frame()` reports no frame nothing is
ever yielded again (the sequence never restarts). -/
theorem generate_frames_yields_until_no_frame (evs : List CaptureEvent) :
    generate_frames evs =
        (evs.takeWhile fun e => e.isSome).filterMap
          (fun e => (e.bind Prod.snd).map framePart) ∧
      ∀ rest : List CaptureEvent, generate_frames (none :: rest) = [] := by
  refine ⟨?_, fun _ => rfl⟩
  induction evs with
  | nil => rfl
  | cons e rest ih =>
    match e with
    | none => rfl
    | some (f, none) => simpa [generate_frames, List.takeWhile_cons] using ih
    | some (f, some b) => simpa [generate_frames, List.takeWhile_cons] using ih

theorem lex_cons_iff {α : Type} [LT α] {a b : α} {xs ys : List α} :
    List.Lex (· < ·) (a :: xs) (b :: ys) ↔
      a < b ∨ (a = b ∧ List.Lex (· < ·) xs ys) := by
  constructor
  · intro h
    cases h with
    | rel h => exact Or.inl h
    | cons h => exact Or.inr ⟨rfl, h⟩
  · rintro (h | ⟨rfl, h⟩)
    · exact List.Lex.rel h
    · exact List.Lex.cons h

theorem lex_append_iff {α : Type} [LT α] :
    ∀ (as bs cs ds : List α), as.length = bs.length →
      (List.Lex (· < ·) (as ++ cs) (bs ++ ds) ↔
        List.Lex (· < ·) as bs ∨ (as = bs ∧ List.Lex (· < ·) cs ds))
  | [], [], cs, ds, _ => by
    constructor
    · intro h
      exact Or.inr ⟨rfl, h⟩
    · rintro (h | ⟨-, h⟩)
      · exact absurd h (List.Lex.not_nil_right _ _)
      · exact h
  | [], _ :: _, _, _, h => by simp at h
  | _ :: _, [], _, _, h => by simp at h
  | a :: as, b :: bs, cs, ds, h => by
    simp only [List.cons_append]
    rw [lex_cons_iff, lex_cons_iff,
      lex_append_iff as bs cs ds (by simpa using h)]
    constructor
    · rintro (hab | ⟨rfl, hl | ⟨rfl, hcd⟩⟩)
      · exact Or.inl (Or.inl hab)
      · exact Or.inl (Or.inr ⟨rfl, hl⟩)
      · exact Or.inr ⟨rfl, hcd⟩
    · rintro ((hab | ⟨rfl, hl⟩) | ⟨heq, hcd⟩)
      · exact Or.inl hab
      · exact Or.inr ⟨rfl, Or.inl hl⟩
      · cases heq
        exact Or.inr ⟨rfl, Or.inr ⟨rfl, hcd⟩⟩

theorem digitChar_lt_iff {d e : ℕ} (hd : d < 10) (he : e < 10) :
    digitChar d < digitChar e ↔ d < e := by
  interval_cases d <;> interval_cases e <;> decide

theorem digitChar_eq_iff {d e : ℕ} (hd : d < 10) (he : e < 10) :
    digitChar d = digitChar e ↔ d = e := by
  interval_cases d <;> interval_cases e <;> decide

theorem lt_iff_div_mod_lt {P n m : ℕ} (hP : 0 < P) :
    n < m ↔ n / P < m / P ∨ (n / P = m / P ∧ n % P < m % P) := by
  obtain ⟨q1, r1, hr1, rfl⟩ : ∃ q r, r < P ∧ n = P * q + r :=
    ⟨n / P, n % P, Nat.mod_lt _ hP, (Nat.div_add_mod n P).symm⟩
  obtain ⟨q2, r2, hr2, rfl⟩ : ∃ q r, r < P ∧ m = P * q + r :=
    ⟨m / P, m % P, Nat.mod_lt _ hP, (Nat.div_add_mod m P).symm⟩
  rw [Nat.mul_add_div hP, Nat.mul_add_div hP, Nat.div_eq_of_lt hr1,
    Nat.div_eq_of_lt hr2, Nat.add_zero, Nat.add_zero,
    Nat.mul_add_mod, Nat.mul_add_mod, Nat.mod_eq_of_lt hr1, Nat.mod_eq_of_lt hr2]
  constructor
  · intro h
    rcases lt_trichotomy q1 q2 with hq | rfl | hq
    · exact Or.inl hq
    · exact Or.inr ⟨rfl, by omega⟩
    · exfalso
      have h1 : P * q2 + r2 < P * q2 + P := Nat.add_lt_add_left hr2 _
      have h2 : P * q2 + P = P * (q2 + 1) := by ring
      have h3 : P * (q2 + 1) ≤ P * q1 := Nat.mul_le_mul_left P hq
      have h4 : P * q1 ≤ P * q1 + r1 := Nat.le_add_right _ _
      omega
  · rintro (hq | ⟨rfl, hr⟩)
    · have h1 : P * q1 + r1 < P * q1 + P := Nat.add_lt_add_left hr1 _
      have h2 : P * q1 + P = P * (q1 + 1) := by ring
      have h3 : P * (q1 + 1) ≤ P * q2 := Nat.mul_le_mul_left P hq
      have h4 : P * q2 ≤ P * q2 + r2 := Nat.le_add_right _ _
      omega
    · exact Nat.add_lt_add_left hr _

theorem lex_padDigits :
    ∀ (k : ℕ) {n m : ℕ}, n < 10 ^ k → m < 10 ^ k →
      (List.Lex (· < ·) (padDigits k n) (padDigits k m) ↔ n < m)
  | 0, n, m, hn, hm => by
    constructor
    · intro h
      exact absurd h (List.Lex.not_nil_right _ _)
    · intro h
      omega
  | k + 1, n, m, hn, hm => by
    have hP : 0 < 10 ^ k := Nat.pos_pow_of_pos k (by norm_num)
    have hd1 : n / 10 ^ k < 10 := by
      rw [Nat.div_lt_iff_lt_mul hP]
      calc n < 10 ^ (k + 1) := hn
        _ = 10 * 10 ^ k := by ring
    have hd2 : m / 10 ^ k < 10 := by
      rw [Nat.div_lt_iff_lt_mul hP]
      calc m < 10 ^ (k + 1) := hm
        _ = 10 * 10 ^ k := by ring
    simp only [padDigits]
    rw [lex_cons_iff, digitChar_lt_iff hd1 hd2, digitChar_eq_iff hd1 hd2,
      lex_padDigits k (Nat.mod_lt _ hP) (Nat.mod_lt _ hP)]
    exact (lt_iff_div_mod_lt hP).symm

theorem padDigits_inj {k n m : ℕ} (hn : n < 10 ^ k) (hm : m < 10 ^ k) :
    padDigits k n = padDigits k m ↔ n = m := by
  constructor
  · intro h
    rcases lt_trichotomy n m with hlt | heq | hgt
    · have hx := (lex_padDigits k hn hm).2 hlt
      rw [h] at hx
      exact absurd ((lex_padDigits k hm hm).1 hx) (lt_irrefl m)
    · exact heq
    · have hx := (lex_padDigits k hm hn).2 hgt
      rw [h] at hx
      exact absurd ((lex_padDigits k hm hm).1 hx) (lt_irrefl m)
  · rintro rfl; rfl

theorem lex_field_step {k n m : ℕ} (hn : n < 10 ^ k) (hm : m < 10 ^ k)
    (sep : Char) (cs ds : List Char) :
    List.Lex (· < ·) (padDigits k n ++ sep :: cs) (padDigits k m ++ sep :: ds) ↔
      n < m ∨ (n = m ∧ List.Lex (· < ·) cs ds) := by
  rw [lex_append_iff _ _ _ _ (by simp [padDigits_length]),
    lex_padDigits k hn hm, padDigits_inj hn hm, lex_cons_iff]
  have hsep : ¬sep < sep := lt_irrefl sep
  tauto

theorem dateTimestampChars_lex_iff {a b : DateTime} (ha : a.Fits) (hb : b.Fits) :
    List.Lex (· < ·) (dateTimestampChars a) (dateTimestampChars b) ↔ dtLt a b := by
  obtain ⟨ha1, ha2, ha3, ha4, ha5, ha6⟩ := ha
  obtain ⟨hb1, hb2, hb3, hb4, hb5, hb6⟩ := hb
  unfold dateTimestampChars dtLt
  rw [lex_field_step ha1 hb1, lex_field_step ha2 hb2, lex_field_step ha3 hb3,
    lex_field_step ha4 hb4, lex_field_step ha5 hb5, lex_padDigits 2 ha6 hb6]

theorem dateTimestamp_lt_iff {a b : DateTime} (ha : a.Fits) (hb : b.Fits) :
    dateTimestamp a < dateTimestamp b ↔ dtLt a b := by
  rw [String.lt_iff_toList_lt]
  show List.Lex (· < ·) (dateTimestampChars a) (dateTimestampChars b) ↔ _
  exact dateTimestampChars_lex_iff ha hb

theorem not_dtLt_iff_dtLe (a b : DateTime) : ¬dtLt b a ↔ dtLe a b := by
  cases a
  cases b
  simp only [dtLt, dtLe, DateTime.mk.injEq]
  omega

theorem dateTimestamp_le_iff {a b : DateTime} (ha : a.Fits) (hb : b.Fits) :
    dateTimestamp a ≤ dateTimestamp b ↔ dtLe a b := by
  rw [← not_lt, dateTimestamp_lt_iff hb ha]
  exact not_dtLt_iff_dtLe a b

/-- Claim C8: the recording listing consists of exactly the entries with
a recognized video extension — each annotated with its size in megabytes
rounded to two decimals and its formatted modification timestamp — and is
ordered by modification time descending. -/
theorem recording_list_exact_and_sorted (dir : List FileEntry)
    (hfits : ∀ e ∈ dir, e.mtime.Fits) :
    ∃ es : List FileEntry,
      es.Perm (dir.filter fun e => isVideoFile e.name) ∧
        get_recording_list dir = es.map mkRecordingItem ∧
        es.Pairwise fun x y => dtLe y.mtime x.mtime := by
  have htrans : ∀ a b c : FileEntry,
      (fun x y : FileEntry => decide (dateTimestamp y.mtime ≤ dateTimestamp x.mtime)) a b →
      (fun x y : FileEntry => decide (dateTimestamp y.mtime ≤ dateTimestamp x.mtime)) b c →
      (fun x y : FileEntry => decide (dateTimestamp y.mtime ≤ dateTimestamp x.mtime)) a c := by
    intro a b c hab hbc
    simp only [decide_eq_true_eq] at hab hbc ⊢
    exact le_trans hbc hab
  have htotal : ∀ a b : FileEntry,
      ((fun x y : FileEntry => decide (dateTimestamp y.mtime ≤ dateTimestamp x.mtime)) a b ||
        (fun x y : FileEntry => decide (dateTimestamp y.mtime ≤ dateTimestamp x.mtime)) b a) := by
    intro a b
    simp only [Bool.or_eq_true, decide_eq_true_eq]
    exact le_total _ _
  refine ⟨(dir.filter fun e => isVideoFile e.name).mergeSort
      (fun x y => decide (dateTimestamp y.mtime ≤ dateTimestamp x.mtime)), ?_, ?_, ?_⟩
  · exact List.mergeSort_perm _ _
  · show ((dir.filter fun e => isVideoFile e.name).map mkRecordingItem).mergeSort
        (fun x y => decide (y.date ≤ x.date)) = _
    refine (List.map_mergeSort ?_).symm
    exact fun a _ b _ => rfl
  · have hs : ((dir.filter fun e => isVideoFile e.name).mergeSort
        (fun x y => decide (dateTimestamp y.mtime ≤ dateTimestamp x.mtime))).Pairwise
        (fun x y : FileEntry =>
          decide (dateTimestamp y.mtime ≤ dateTimestamp x.mtime) = true) :=
      List.sorted_mergeSort htrans htotal _
    refine hs.imp_of_mem ?_
    intro x y hx hy hxy
    have hx2 : x ∈ dir := (List.mem_filter.1 (List.mem_mergeSort.1 hx)).1
    have hy2 : y ∈ dir := (List.mem_filter.1 (List.mem_mergeSort.1 hy)).1
    rw [decide_eq_true_eq] at hxy
    exact (dateTimestamp_le_iff (hfits y hy2) (hfits x hx2)).1 hxy

/-- Witness for C8 on a concrete directory holding two video files and a
text file. -/
theorem recording_list_exact_and_sorted_witness :
    ∃ es : List FileEntry,
      es.Perm (([⟨"b.mp4", 2097152, ⟨2024, 1, 2, 3, 4, 5⟩⟩,
          ⟨"notes.txt", 10, ⟨2024, 1, 1, 0, 0, 0⟩⟩,
          ⟨"a.avi", 1048576, ⟨2024, 2, 2, 3, 4, 5⟩⟩] : List FileEntry).filter
            fun e => isVideoFile e.name) ∧
        get_recording_list
            [⟨"b.mp4", 2097152, ⟨2024, 1, 2, 3, 4, 5⟩⟩,
              ⟨"notes.txt", 10, ⟨2024, 1, 1, 0, 0, 0⟩⟩,
              ⟨"a.avi", 1048576, ⟨2024, 2, 2, 3, 4, 5⟩⟩] = es.map mkRecordingItem ∧
        es.Pairwise fun x y => dtLe y.mtime x.mtime :=
  recording_list_exact_and_sorted
    [⟨"b.mp4", 2097152, ⟨2024, 1, 2, 3, 4, 5⟩⟩,
      ⟨"notes.txt", 10, ⟨2024, 1, 1, 0, 0, 0⟩⟩,
      ⟨"a.avi", 1048576, ⟨2024, 2, 2, 3, 4, 5⟩⟩] (by decide)

end DVR

